import Mathlib

/-!
# Verification of the aws-provisioner provisioning core (`provision.js`)

Shallow embedding of the control loop and per-pool reconciliation engine of
the provisioner.  Each `async` function of the source is embedded as a Lean
function returning a pair of an event trace (`List Event`, the externally
visible calls in the order the single-threaded runtime performs them) and an
`Except Err` result (promise resolution / rejection).  External collaborators
(the queue, the cloud-resource manager, the secret store, the pool entities)
are abstracted as an environment record `Env`: each collaborator call takes
its arguments and yields the result the collaborator would return, so the
embedded code's control flow is driven exactly as the JavaScript is.

JavaScript `Promise.all` over a list of already-started tasks is modelled by
running every branch (concatenating their traces in list order) and combining
the results so that any rejection rejects the whole; the source passes a plain
array (not a promise) as one element of a `Promise.all` list in
`runAllProvisionersOnce`, and the embedding reproduces that faithfully: the
element's tasks are started (their effects occur) but their results are never
consulted.
-/

namespace AwsProvisioner

/-- Errors carried by rejected promises. -/
abbrev Err := String

instance : DecidableEq (Except Err Unit) := fun a b =>
  match a, b with
  | .ok (), .ok () => isTrue rfl
  | .error e1, .error e2 =>
      if h : e1 = e2 then isTrue (by rw [h]) else
        isFalse (by intro hc; cases hc; exact h rfl)
  | .ok (), .error _ => isFalse (by intro hc; cases hc)
  | .error _, .ok () => isFalse (by intro hc; cases hc)

/-- Instance lifecycle states used by capacity queries and kill requests. -/
inductive InstState where
  | running
  | pending
  | spotReq
  deriving DecidableEq, Repr

/-- One candidate spot bid: region, availability zone, instance type, price. -/
structure Bid where
  region : String
  zone : String
  instType : String
  price : Nat
  deriving DecidableEq, Repr

/-- A worker-type (pool) entity as consumed by the provisioner: only its name
is read directly; its policy methods are supplied through `Env`. -/
structure WorkerType where
  workerType : String
  deriving DecidableEq, Repr

/-- Result of `workerType.createLaunchSpec(region, type)`, after `spawn`
overlays the availability-zone placement from the bid. -/
structure LaunchInfo where
  securityToken : String
  secrets : String
  scopes : List String
  placementZone : Option String
  deriving DecidableEq, Repr

/-- The record written by `Secret.create` in `spawn`. -/
structure SecretRec where
  token : String
  workerType : String
  secrets : String
  scopes : List String
  expiration : Nat
  deriving DecidableEq, Repr

/-- The per-pool iteration metrics record reported by `provisionType`. -/
structure IterationRecord where
  provisionerId : String
  workerType : String
  pendingTasks : Nat
  runningCapacity : Nat
  pendingCapacity : Nat
  change : Int
  deriving DecidableEq, Repr

/-- Externally visible calls made by the provisioning core, in execution
order. -/
inductive Event where
  | loadAll
  | pricingFetch
  | managerUpdate
  | rougeKiller (workerNames : List String)
  | zombieKiller
  | ensureTags
  | createKeyPair (name : String)
  | pendingTasksQuery (workerType : String)
  | reportIteration (rec : IterationRecord)
  | secretCreate (rec : SecretRec)
  | requestSpotInstance (workerType : String) (bid : Bid)
  | delay (ms : Nat)
  | killCapacity (workerType : String) (count : Nat) (states : List InstState)
  deriving DecidableEq, Repr

/-- The environment of external collaborators.  A field holding
`Except Err _` is a collaborator call that may reject; a plain function is a
synchronous pure read (e.g. the cloud manager's cached capacity view, which
is refreshed once per sweep and read-only thereafter). -/
structure Env where
  provisionerId : String
  regions : List String
  /-- `WorkerType.loadAll()` -/
  loadAll : Except Err (List WorkerType)
  /-- `awsPricing(ec2)`; the snapshot itself is opaque to the core. -/
  pricing : Except Err Unit
  /-- `awsManager.update()` -/
  update : Except Err Unit
  /-- `awsManager.rougeKiller(workerNames)` -/
  rougeKiller : List String → Except Err Unit
  /-- `awsManager.zombieKiller()` -/
  zombieKiller : Except Err Unit
  /-- `awsManager.ensureTags()` -/
  ensureTags : Except Err Unit
  /-- `awsManager.createKeyPair(name)` -/
  createKeyPair : String → Except Err Unit
  /-- `queue.pendingTasks(provisionerId, workerType)` -/
  pendingTasks : String → Except Err Nat
  /-- `awsManager.capacityForType(workerType, states)`: pure read of the
  cached view. -/
  capacityForType : String → List InstState → Nat
  /-- `workerType.determineCapacityChange(running, pending, pendingTasks)`:
  the pool's pure capacity policy, a black box to the reconciler. -/
  determineCapacityChange : String → Nat → Nat → Nat → Int
  /-- Modelled from the spec: `WorkerType.determineSpotBids` lives in the
  worker-type entity, outside the reviewed core.  §2 (Bid Resolver): pure
  function turning (pool definition, pricing snapshot, capacity delta) into
  an ordered list of candidate bids; §4.3 step 5: the reconciler asks it for
  exactly `delta` bids.  Modelled as an arbitrary pure function of the pool
  name, the allowed regions and the delta; the exactly-`delta` contract is
  stated separately as `BidResolverContract`. -/
  determineSpotBids : String → List String → Nat → List Bid
  /-- `workerType.createLaunchSpec(region, type)`: pure template
  instantiation by the pool entity. -/
  createLaunchSpec : String → String → String → LaunchInfo
  /-- `taskcluster.fromNow('40 minutes')` evaluated at the spawn. -/
  fortyMinutesFromNow : Nat
  /-- `Secret.create(record)` -/
  secretCreate : SecretRec → Except Err Unit
  /-- `awsManager.requestSpotInstance(launchInfo, bid)` -/
  requestSpotInstance : LaunchInfo → Bid → Except Err Unit
  /-- `awsManager.killCapacityOfWorkerType(workerType, count, states)` -/
  killCapacityOfWorkerType : String → Nat → List InstState → Except Err Unit

/-- Modelled from the spec: the Bid Resolver contract (§4.3 step 5, §8): for
a scale-up delta the resolver returns exactly `delta` bids. -/
def BidResolverContract (env : Env) : Prop :=
  ∀ wt delta, (env.determineSpotBids wt env.regions delta).length = delta

/-- The secret record that `spawn(workerType, bid)` writes, assembled exactly
as the source builds it from `createLaunchSpec`'s result. -/
def spawnSecretRec (env : Env) (workerType : WorkerType) (bid : Bid) : SecretRec :=
  let launchInfo := env.createLaunchSpec workerType.workerType bid.region bid.instType
  { token := launchInfo.securityToken
    workerType := workerType.workerType
    secrets := launchInfo.secrets
    scopes := launchInfo.scopes
    expiration := env.fortyMinutesFromNow }

/-- The launch information `spawn` passes to `requestSpotInstance`: the
pool's launch spec with the bid's availability zone overlaid as placement. -/
def spawnLaunchInfo (env : Env) (workerType : WorkerType) (bid : Bid) : LaunchInfo :=
  { env.createLaunchSpec workerType.workerType bid.region bid.instType with
      placementZone := some bid.zone }

/-- `Provisioner.prototype.spawn(workerType, bid)`: build the launch spec,
overlay placement, `await Secret.create(...)`, then return
`awsManager.requestSpotInstance(launchInfo, bid)`.  A secret-store rejection
rejects `spawn` before any spot request is issued. -/
def spawn (env : Env) (workerType : WorkerType) (bid : Bid) :
    List Event × Except Err Unit :=
  let sr := spawnSecretRec env workerType bid
  match env.secretCreate sr with
  | .error e => ([Event.secretCreate sr], .error e)
  | .ok _ =>
      ([Event.secretCreate sr,
        Event.requestSpotInstance workerType.workerType bid],
       env.requestSpotInstance (spawnLaunchInfo env workerType bid) bid)

/-- Is this event a provisioning-request submission? -/
def isRequestEvent : Event → Bool
  | Event.requestSpotInstance _ _ => true
  | _ => false

/-- Is this event a secret-store write? -/
def isSecretEvent : Event → Bool
  | Event.secretCreate _ => true
  | _ => false

/-- Every provisioning-request submission in the trace is preceded by some
earlier secret-store write. -/
def requestsCoveredBySecret (seenSecret : Bool) : List Event → Bool
  | [] => true
  | e :: rest =>
      if isRequestEvent e then
        seenSecret && requestsCoveredBySecret seenSecret rest
      else
        requestsCoveredBySecret (seenSecret || isSecretEvent e) rest

/-- Number of events of the trace satisfying `p`. -/
def countEvents (p : Event → Bool) (tr : List Event) : Nat :=
  (tr.filter p).length

/-- Modelled from the spec: `lib/delayer` is outside the reviewed core.
§4.2: `delayer(ms)` returns a reusable operation that suspends the caller
for `ms` milliseconds and then resolves, forwarding a value unchanged.  An
invocation is modelled as a single `delay` event forwarding the value. -/
def delayerCall (ms : Nat) : List Event := [Event.delay ms]

/-- The sequential bid-submission chain of `provisionType`'s scale-up branch:
`q = Promise.resolve(); bids.forEach(bid => { q = q.then(() => spawn(workerType, bid)).then(d); })`
with `d = delayer(500)`.  Each bid's spawn is awaited before the next begins
and is followed by the 500 ms pacing delay; a rejection skips every later
`then` handler, so the chain stops at the first failing spawn and rejects
with its error. -/
def bidChain (env : Env) (workerType : WorkerType) :
    List Bid → List Event × Except Err Unit
  | [] => ([], .ok ())
  | bid :: rest =>
      let s := spawn env workerType bid
      match s.2 with
      | .error e => (s.1, .error e)
      | .ok _ =>
          let tail := bidChain env workerType rest
          (s.1 ++ delayerCall 500 ++ tail.1, tail.2)

/-- The metrics record `provisionType` reports for a pool, assembled exactly
as the source does from the queue result and the capacity queries. -/
def iterationRecord (env : Env) (workerType : WorkerType) (pendingTasks : Nat) :
    IterationRecord :=
  let wt := workerType.workerType
  let runningCapacity := env.capacityForType wt [InstState.running]
  let pendingCapacity := env.capacityForType wt [InstState.pending, InstState.spotReq]
  { provisionerId := env.provisionerId
    workerType := wt
    pendingTasks := pendingTasks
    runningCapacity := runningCapacity
    pendingCapacity := pendingCapacity
    change := env.determineCapacityChange wt runningCapacity pendingCapacity pendingTasks }

/-- `Provisioner.prototype.provisionType(workerType, pricing)`: query pending
tasks, read running and pending capacity, compute the capacity change via the
pool's policy, report the iteration record, then branch on the sign of the
change (sequential bid chain for positive, bounded kill request for negative,
nothing for zero).  The pricing snapshot is opaque to the core and already
folded into `env.determineSpotBids`. -/
def provisionType (env : Env) (workerType : WorkerType) :
    List Event × Except Err Unit :=
  let wt := workerType.workerType
  match env.pendingTasks wt with
  | .error e => ([Event.pendingTasksQuery wt], .error e)
  | .ok pendingTasks =>
      let rec' := iterationRecord env workerType pendingTasks
      let change := rec'.change
      let pre := [Event.pendingTasksQuery wt, Event.reportIteration rec']
      if 0 < change then
        let bids := env.determineSpotBids wt env.regions change.toNat
        let chain := bidChain env workerType bids
        (pre ++ chain.1, chain.2)
      else if change < 0 then
        let capacityToKill := (-change).toNat
        (pre ++ [Event.killCapacity wt capacityToKill
                  [InstState.pending, InstState.spotReq]],
         env.killCapacityOfWorkerType wt capacityToKill
           [InstState.pending, InstState.spotReq])
      else
        (pre, .ok ())

/-- Combine the results of a `Promise.all` fan-in: every branch has already
run; the first rejection (in list order) rejects the whole. -/
def allOf : List (Except Err Unit) → Except Err Unit
  | [] => .ok ()
  | .ok _ :: rest => allOf rest
  | .error e :: _ => .error e

/-- The trace of the fleet-wide maintenance `Promise.all` in
`runAllProvisionersOnce`.  Its list holds three promises and, as its fourth
element, the PLAIN ARRAY `workerNames.map(name => createKeyPair(name))`:
mapping starts every `createKeyPair` call (their effects occur), but the
array is not a thenable, so `Promise.all` treats it as an already-settled
value — the key-pair results are never awaited or consulted. -/
def maintenanceTrace (workerNames : List String) : List Event :=
  [Event.rougeKiller workerNames, Event.zombieKiller, Event.ensureTags] ++
    workerNames.map Event.createKeyPair

/-- The result of the maintenance `Promise.all`: only the three genuine
promises are consulted; the `createKeyPair` results are discarded with the
plain array that holds them. -/
def maintenanceResult (env : Env) (workerNames : List String) : Except Err Unit :=
  allOf [env.rougeKiller workerNames, env.zombieKiller, env.ensureTags]

/-- `Provisioner.prototype.runAllProvisionersOnce()`: concurrently load all
worker types, the pricing snapshot and the manager's state refresh; then the
maintenance `Promise.all`; then fan `provisionType` out over every worker
type with `Promise.all(workerTypes.map(async worker => provisionType(...)))`
— every pool's call is started by the `map`, so each runs to its own
completion whatever the others do, and any rejection rejects the sweep. -/
def runAllProvisionersOnce (env : Env) : List Event × Except Err Unit :=
  let tr0 := [Event.loadAll, Event.pricingFetch, Event.managerUpdate]
  match env.loadAll with
  | .error e => (tr0, .error e)
  | .ok workerTypes =>
      match allOf [env.pricing, env.update] with
      | .error e => (tr0, .error e)
      | .ok _ =>
          let workerNames := workerTypes.map (·.workerType)
          let tr1 := maintenanceTrace workerNames
          match maintenanceResult env workerNames with
          | .error e => (tr0 ++ tr1, .error e)
          | .ok _ =>
              let results := workerTypes.map (fun w => provisionType env w)
              (tr0 ++ tr1 ++ (results.map Prod.fst).flatten,
               allOf (results.map Prod.snd))

/-! ## The control loop (`run` / `stop`) -/

/-- `MAX_PROVISION_ITERATION`: maximum silence tolerated by the watchdog. -/
def MAX_PROVISION_ITERATION : Nat := 1000 * 60 * 10

/-- `MAX_KILL_TIME`: grace period of the hard-exit timer on fatal paths. -/
def MAX_KILL_TIME : Nat := 1000 * 30

/-- `MAX_FAILURES`: consecutive-failure threshold of the circuit breaker. -/
def MAX_FAILURES : Nat := 15

/-- The iteration-stats counters `this.__stats`. -/
structure Stats where
  runs : Nat
  consecFail : Nat
  deriving DecidableEq, Repr

/-- The watchdog as the loop observes it: armed (started) or not. -/
structure WatchDogState where
  running : Bool
  deriving DecidableEq, Repr

/-- The mutable state of a `Provisioner` instance that `run`/`stop` touch. -/
structure PState where
  keepRunning : Bool
  watchDog : WatchDogState
  stats : Stats
  deriving DecidableEq, Repr

/-- The state the constructor `Provisioner(cfg)` establishes:
`__keepRunning = false`, a fresh (not yet started) watchdog, zero stats. -/
def initState : PState :=
  { keepRunning := false
    watchDog := { running := false }
    stats := { runs := 0, consecFail := 0 } }

/-- `Provisioner.prototype.stop()`: clear the keep-running flag, stop the
watchdog, zero both stats counters.  It mutates only this state — the
iteration in flight is not aborted. -/
def stop (_s : PState) : PState :=
  { keepRunning := false
    watchDog := { running := false }
    stats := { runs := 0, consecFail := 0 } }

/-- The state mutations `run()` performs before entering its loop: set the
keep-running flag, register the expiry handler and start the watchdog. -/
def runEntry (s : PState) : PState :=
  { s with keepRunning := true, watchDog := { running := true } }

/-- Externally visible steps of one loop iteration. -/
inductive LoopEvent where
  | watchdogTouch
  | exitTimerScheduled (ms : Nat)
  | sweep (ok : Bool)
  | interDelay (ms : Nat)
  deriving DecidableEq, Repr

/-- Outcome of one pass through the loop body. -/
inductive IterResult where
  | continued (stats : Stats)
  | fatal (stats : Stats) (msg : String)
  deriving DecidableEq, Repr

/-- One pass through the body of `run`'s `do … while` loop, driven by the
outcome `sweepOk` the orchestrator sweep would have: touch the watchdog;
if `consecFail > MAX_FAILURES` schedule the hard-exit timer and throw (no
sweep is attempted); otherwise increment `runs`, run the sweep, zero
`consecFail` on success or increment it on failure, and delay for the
configured interval. -/
def runIteration (stats : Stats) (sweepOk : Bool) (interval : Nat) :
    List LoopEvent × IterResult :=
  if MAX_FAILURES < stats.consecFail then
    ([LoopEvent.watchdogTouch, LoopEvent.exitTimerScheduled MAX_KILL_TIME],
     .fatal stats "provisioner is failing a lot")
  else
    ([LoopEvent.watchdogTouch, LoopEvent.sweep sweepOk,
      LoopEvent.interDelay interval],
     .continued
       { runs := stats.runs + 1
         consecFail := if sweepOk then 0 else stats.consecFail + 1 })

/-- Is this event an iteration-metrics report? -/
def isReportEvent : Event → Bool
  | Event.reportIteration _ => true
  | _ => false

/-- Is this event a capacity-kill request? -/
def isKillEvent : Event → Bool
  | Event.killCapacity _ _ _ => true
  | _ => false

/-! ## Concrete environments for evaluating the model -/

/-- A fully healthy environment: two pools, every collaborator succeeds,
backlog 10 against 3 running and 2 pending capacity units. -/
def baseEnv : Env where
  provisionerId := "aws-provisioner"
  regions := ["us-west-2"]
  loadAll := .ok [⟨"w1"⟩, ⟨"w2"⟩]
  pricing := .ok ()
  update := .ok ()
  rougeKiller := fun _ => .ok ()
  zombieKiller := .ok ()
  ensureTags := .ok ()
  createKeyPair := fun _ => .ok ()
  pendingTasks := fun _ => .ok 10
  capacityForType := fun _ states =>
    if states = [InstState.running] then 3 else 2
  determineCapacityChange := fun _ running pending tasks =>
    (tasks : Int) - ((running : Int) + (pending : Int))
  determineSpotBids := fun _ _ delta =>
    (List.range delta).map (fun i => ⟨"us-west-2", "us-west-2a", "m3.large", i⟩)
  createLaunchSpec := fun wt region instType =>
    { securityToken := wt ++ "-" ++ region ++ "-" ++ instType
      secrets := "payload"
      scopes := ["assume:worker"]
      placementZone := none }
  fortyMinutesFromNow := 2400000
  secretCreate := fun _ => .ok ()
  requestSpotInstance := fun _ _ => .ok ()
  killCapacityOfWorkerType := fun _ _ _ => .ok ()

/-- `baseEnv` with a secret store that rejects every write. -/
def secretFailEnv : Env :=
  { baseEnv with secretCreate := fun _ => .error "secret-fail" }

/-- `baseEnv` with one pool, a zero capacity delta, and a key-pair
provisioning call that rejects; every other collaborator succeeds. -/
def keyPairFailEnv : Env :=
  { baseEnv with
      loadAll := .ok [⟨"w1"⟩]
      createKeyPair := fun _ => .error "keypair-fail"
      determineCapacityChange := fun _ _ _ _ => 0 }

/-- `baseEnv` where the spot-request submission rejects exactly for the bid
priced 2 (the third of the five bids `baseEnv` resolves for delta 5). -/
def thirdBidFailEnv : Env :=
  { baseEnv with
      requestSpotInstance := fun _ bid =>
        if bid.price = 2 then .error "spot-fail" else .ok () }

/-- `baseEnv` where pool `w1`'s pending-task query rejects while `w2`'s
succeeds. -/
def mixedFailEnv : Env :=
  { baseEnv with
      pendingTasks := fun wt =>
        if wt = "w1" then .error "queue-down" else .ok 10 }

/-- `baseEnv` with a backlog of 0, so the capacity policy yields a negative
delta (0 − (3 + 2) = −5). -/
def scaleDownEnv : Env :=
  { baseEnv with pendingTasks := fun _ => .ok 0 }

/-- `baseEnv` with a backlog of 5, so the capacity policy yields delta 0. -/
def zeroDeltaEnv : Env :=
  { baseEnv with pendingTasks := fun _ => .ok 5 }

/-! ## Theorems -/

/-! ### Helper lemmas shared by the claim theorems -/

/-- Event counts add over trace concatenation. -/
theorem countEvents_append (p : Event → Bool) (l1 l2 : List Event) :
    countEvents p (l1 ++ l2) = countEvents p l1 + countEvents p l2 := by
  simp [countEvents, List.filter_append]

/-- A trace none of whose events satisfies `p` counts zero. -/
theorem countEvents_eq_zero (p : Event → Bool) (tr : List Event)
    (h : ∀ ev ∈ tr, p ev = false) : countEvents p tr = 0 := by
  simp only [countEvents, List.length_eq_zero, List.filter_eq_nil_iff]
  intro ev hev
  simp [h ev hev]

/-- Every event `spawn` emits is a secret write or a request submission. -/
theorem spawn_traceEvents (env : Env) (wt : WorkerType) (b : Bid) :
    ∀ ev ∈ (spawn env wt b).1, isSecretEvent ev = true ∨ isRequestEvent ev = true := by
  rcases hs : env.secretCreate (spawnSecretRec env wt b) with e | u <;>
    simp [spawn, hs, isSecretEvent, isRequestEvent]

/-- A successful `spawn` has submitted its bid's provisioning request. -/
theorem spawn_ok_requestMem (env : Env) (wt : WorkerType) (b : Bid)
    (h : (spawn env wt b).2 = .ok ()) :
    Event.requestSpotInstance wt.workerType b ∈ (spawn env wt b).1 := by
  rcases hs : env.secretCreate (spawnSecretRec env wt b) with e | u
  · simp [spawn, hs] at h
  · simp [spawn, hs]

/-- A request submission in `spawn`'s trace is for exactly the bid spawned. -/
theorem spawn_request_inj (env : Env) (wt : WorkerType) (b x : Bid)
    (h : Event.requestSpotInstance wt.workerType x ∈ (spawn env wt b).1) :
    x = b := by
  rcases hs : env.secretCreate (spawnSecretRec env wt b) with e | u <;>
    simp [spawn, hs] at h
  exact h

/-- When every secret write and every request submission succeeds, the bid
chain submits the bids in list order, one spawn (secret write, then request)
followed by the 500 ms pacing delay per bid, and resolves. -/
theorem bidChain_allOk (env : Env) (wt : WorkerType)
    (hsec : ∀ sr, env.secretCreate sr = .ok ())
    (hreq : ∀ li b, env.requestSpotInstance li b = .ok ())
    (bids : List Bid) :
    bidChain env wt bids =
      (bids.flatMap (fun bid =>
        [Event.secretCreate (spawnSecretRec env wt bid),
         Event.requestSpotInstance wt.workerType bid, Event.delay 500]),
       .ok ()) := by
  induction bids with
  | nil => simp [bidChain]
  | cons bid rest ih => simp [bidChain, spawn, hsec, hreq, delayerCall, ih]

/-- When the spawns of `good` succeed and the spawn of `bad` rejects, the
bid chain performs exactly the `good` spawns (each with its pacing delay)
and then the failing spawn, rejects with its error, and never touches any
bid after `bad`. -/
theorem bidChain_stopsAtFailure (env : Env) (wt : WorkerType) (bad : Bid)
    (e : Err) (hbad : (spawn env wt bad).2 = .error e)
    (good rest : List Bid)
    (hgood : ∀ b ∈ good, (spawn env wt b).2 = .ok ()) :
    bidChain env wt (good ++ bad :: rest) =
      (good.flatMap (fun b => (spawn env wt b).1 ++ delayerCall 500) ++
        (spawn env wt bad).1,
       .error e) := by
  induction good with
  | nil => simp [bidChain, hbad]
  | cons b gs ih =>
      have hb : (spawn env wt b).2 = .ok () := hgood b (by simp)
      have htail := ih (fun x hx => hgood x (by simp [hx]))
      simp [bidChain, hb, htail]

/-- `provisionType` always queries the pool's pending tasks. -/
theorem provisionType_queryMem (env : Env) (w : WorkerType) :
    Event.pendingTasksQuery w.workerType ∈ (provisionType env w).1 := by
  rcases h : env.pendingTasks w.workerType with e | n
  · simp [provisionType, h]
  · by_cases h1 : 0 < (iterationRecord env w n).change
    · simp [provisionType, h, h1]
    · by_cases h2 : (iterationRecord env w n).change < 0 <;>
        simp [provisionType, h, h1, h2]

/-- A secret write or a request submission is not a kill request. -/
theorem isKill_false_of_secret_or_request (ev : Event)
    (h : isSecretEvent ev = true ∨ isRequestEvent ev = true) :
    isKillEvent ev = false := by
  cases ev <;> simp_all [isSecretEvent, isRequestEvent, isKillEvent]

/-- The per-bid secret/request/delay triples contain one request each. -/
theorem countRequests_flatMapTriples (env : Env) (wt : WorkerType)
    (bids : List Bid) :
    countEvents isRequestEvent (bids.flatMap (fun bid =>
      [Event.secretCreate (spawnSecretRec env wt bid),
       Event.requestSpotInstance wt.workerType bid, Event.delay 500])) =
      bids.length := by
  induction bids with
  | nil => simp [countEvents]
  | cons b bs ih =>
      simp only [List.flatMap_cons, countEvents_append, ih]
      simp [countEvents, isRequestEvent]
      omega

/-- A `Promise.all` fan-in resolves exactly when every branch resolved. -/
theorem allOf_ok_iff (l : List (Except Err Unit)) :
    allOf l = .ok () ↔ ∀ r ∈ l, r = .ok () := by
  induction l with
  | nil => simp [allOf]
  | cons r rs ih =>
      rcases r with e | u
      · simp [allOf]
      · simpa [allOf] using ih

/-- Every event the bid chain emits is a secret write, a request submission
or the 500 ms pacing delay. -/
theorem bidChain_traceEvents (env : Env) (wt : WorkerType) (bids : List Bid) :
    ∀ ev ∈ (bidChain env wt bids).1,
      isSecretEvent ev = true ∨ isRequestEvent ev = true ∨
        ev = Event.delay 500 := by
  induction bids with
  | nil => simp [bidChain]
  | cons b bs ih =>
      intro ev hev
      simp only [bidChain] at hev
      rcases h : (spawn env wt b).2 with e | u <;> rw [h] at hev
      · exact Or.elim (spawn_traceEvents env wt b ev hev) Or.inl
          (fun h2 => Or.inr (Or.inl h2))
      · simp only [List.append_assoc, List.mem_append] at hev
        rcases hev with h1 | h1 | h1
        · exact Or.elim (spawn_traceEvents env wt b ev h1) Or.inl
            (fun h2 => Or.inr (Or.inl h2))
        · simp only [delayerCall, List.mem_singleton] at h1
          exact Or.inr (Or.inr h1)
        · exact ih ev h1

/-- A secret write, a request submission or a pacing delay is not an
iteration-metrics report. -/
theorem isReport_false_of_chainEvent (ev : Event)
    (h : isSecretEvent ev = true ∨ isRequestEvent ev = true ∨
      ev = Event.delay 500) : isReportEvent ev = false := by
  cases ev <;> simp_all [isSecretEvent, isRequestEvent, isReportEvent]

/-! ### Claim theorems -/

/-- C3: for a pool whose capacity delta is positive, `provisionType` submits
exactly `delta` bids (under the Bid-Resolver contract that exactly `delta`
bids are resolved), strictly sequentially in bid order, each submission
followed by the fixed 500 ms pacing delay before the next begins; the trace
is exactly the per-bid secret-write/request/delay triples in order. -/
theorem provisionType_scaleUpSequential (env : Env) (workerType : WorkerType)
    (pendingTasks : Nat)
    (hpt : env.pendingTasks workerType.workerType = .ok pendingTasks)
    (hpos : 0 < (iterationRecord env workerType pendingTasks).change)
    (hres : BidResolverContract env)
    (hsec : ∀ sr, env.secretCreate sr = .ok ())
    (hreq : ∀ li b, env.requestSpotInstance li b = .ok ()) :
    (provisionType env workerType).1 =
      [Event.pendingTasksQuery workerType.workerType,
       Event.reportIteration (iterationRecord env workerType pendingTasks)] ++
      (env.determineSpotBids workerType.workerType env.regions
          (iterationRecord env workerType pendingTasks).change.toNat).flatMap
        (fun bid =>
          [Event.secretCreate (spawnSecretRec env workerType bid),
           Event.requestSpotInstance workerType.workerType bid,
           Event.delay 500]) ∧
    countEvents isRequestEvent (provisionType env workerType).1 =
      (iterationRecord env workerType pendingTasks).change.toNat ∧
    (provisionType env workerType).2 = .ok () := by
  have hchain := bidChain_allOk env workerType hsec hreq
    (env.determineSpotBids workerType.workerType env.regions
      (iterationRecord env workerType pendingTasks).change.toNat)
  have htr : (provisionType env workerType).1 =
      [Event.pendingTasksQuery workerType.workerType,
       Event.reportIteration (iterationRecord env workerType pendingTasks)] ++
      (env.determineSpotBids workerType.workerType env.regions
          (iterationRecord env workerType pendingTasks).change.toNat).flatMap
        (fun bid =>
          [Event.secretCreate (spawnSecretRec env workerType bid),
           Event.requestSpotInstance workerType.workerType bid,
           Event.delay 500]) := by
    simp only [provisionType, hpt, hpos, if_true, hchain]
  refine ⟨htr, ?_, ?_⟩
  · rw [htr, countEvents_append, countRequests_flatMapTriples,
      hres workerType.workerType]
    simp [countEvents, isRequestEvent]
  · simp only [provisionType, hpt, hpos, if_true, hchain]

/-- Witness for C3: at the healthy environment (delta 5), five bids are
submitted and `provisionType` resolves. -/
theorem provisionType_scaleUpSequential_witness :
    countEvents isRequestEvent (provisionType baseEnv ⟨"w1"⟩).1 = 5 ∧
    (provisionType baseEnv ⟨"w1"⟩).2 = .ok () := by
  have h := provisionType_scaleUpSequential baseEnv ⟨"w1"⟩ 10 rfl (by decide)
    (fun wt delta => by simp [baseEnv]) (fun _ => rfl) (fun _ _ => rfl)
  exact ⟨h.2.1.trans (by decide), h.2.2⟩

/-- C4: during scale-up, when the spawns of the bids before `bad` succeed
and `bad`'s spawn rejects, `provisionType` rejects with that error (never
swallowed), while every previously submitted bid's provisioning request
remains in the trace and no termination request is ever issued — nothing is
blocked, cancelled or undone. -/
theorem provisionType_scaleUpFailurePropagates (env : Env)
    (workerType : WorkerType) (pendingTasks : Nat) (good rest : List Bid)
    (bad : Bid) (e : Err)
    (hpt : env.pendingTasks workerType.workerType = .ok pendingTasks)
    (hpos : 0 < (iterationRecord env workerType pendingTasks).change)
    (hbids : env.determineSpotBids workerType.workerType env.regions
        (iterationRecord env workerType pendingTasks).change.toNat =
      good ++ bad :: rest)
    (hgood : ∀ b ∈ good, (spawn env workerType b).2 = .ok ())
    (hbad : (spawn env workerType bad).2 = .error e) :
    (provisionType env workerType).2 = .error e ∧
    (∀ b ∈ good, Event.requestSpotInstance workerType.workerType b ∈
      (provisionType env workerType).1) ∧
    countEvents isKillEvent (provisionType env workerType).1 = 0 := by
  have hchain := bidChain_stopsAtFailure env workerType bad e hbad good rest hgood
  have htr : (provisionType env workerType).1 =
      [Event.pendingTasksQuery workerType.workerType,
       Event.reportIteration (iterationRecord env workerType pendingTasks)] ++
      (good.flatMap (fun b => (spawn env workerType b).1 ++ delayerCall 500) ++
        (spawn env workerType bad).1) := by
    simp only [provisionType, hpt, hpos, if_true, hbids, hchain]
  refine ⟨?_, ?_, ?_⟩
  · simp only [provisionType, hpt, hpos, if_true, hbids, hchain]
  · intro b hb
    have hmem := spawn_ok_requestMem env workerType b (hgood b hb)
    rw [htr]
    refine List.mem_append_right _ (List.mem_append_left _ ?_)
    exact List.mem_flatMap.mpr ⟨b, hb, List.mem_append_left _ hmem⟩
  · rw [htr]
    refine countEvents_eq_zero _ _ ?_
    intro ev hev
    rcases List.mem_append.mp hev with h1 | h1
    · rcases List.mem_cons.mp h1 with h2 | h2
      · simp [h2, isKillEvent]
      · rcases List.mem_cons.mp h2 with h3 | h3
        · simp [h3, isKillEvent]
        · simp at h3
    · rcases List.mem_append.mp h1 with h2 | h2
      · rcases List.mem_flatMap.mp h2 with ⟨b, _, h3⟩
        rcases List.mem_append.mp h3 with h4 | h4
        · exact isKill_false_of_secret_or_request ev
            (spawn_traceEvents env workerType b ev h4)
        · simp only [delayerCall, List.mem_singleton] at h4
          simp [h4, isKillEvent]
      · exact isKill_false_of_secret_or_request ev
          (spawn_traceEvents env workerType bad ev h2)

/-- C1: in every invocation of `spawn(pool, bid)`, the Launch-Secret write
completes before the provisioning request is submitted (every submission in
the trace is preceded by a secret write), and if the secret write fails,
`spawn` rejects with that error having submitted no provisioning request. -/
theorem spawn_secretBeforeRequest (env : Env) (workerType : WorkerType) (bid : Bid) :
    requestsCoveredBySecret false (spawn env workerType bid).1 = true ∧
    (∀ e, env.secretCreate (spawnSecretRec env workerType bid) = .error e →
      countEvents isRequestEvent (spawn env workerType bid).1 = 0 ∧
      (spawn env workerType bid).2 = .error e) := by
  rcases h : env.secretCreate (spawnSecretRec env workerType bid) with e | u <;>
    simp [spawn, h, requestsCoveredBySecret, isRequestEvent, isSecretEvent, countEvents]

/-- Witness for C1: at a concrete environment whose secret store rejects,
`spawn` rejects with the secret-store error and submits nothing. -/
theorem spawn_secretBeforeRequest_witness :
    countEvents isRequestEvent
        (spawn secretFailEnv ⟨"w1"⟩ ⟨"us-west-2", "us-west-2a", "m3.large", 0⟩).1 = 0 ∧
    (spawn secretFailEnv ⟨"w1"⟩ ⟨"us-west-2", "us-west-2a", "m3.large", 0⟩).2 =
      .error "secret-fail" :=
  (spawn_secretBeforeRequest secretFailEnv ⟨"w1"⟩
    ⟨"us-west-2", "us-west-2a", "m3.large", 0⟩).2 "secret-fail" rfl

/-- C2 (refuting the claim as stated): in `runAllProvisionersOnce` the
fourth element of the maintenance `Promise.all` list is a plain array of the
`createKeyPair` promises, not a promise, so their settlement is never
awaited: at an environment whose `createKeyPair` rejects while every other
collaborator succeeds, the key-pair call is made but the sweep still
resolves successfully. -/
theorem runAllProvisionersOnce_keyPairFailureSwallowed :
    keyPairFailEnv.createKeyPair "w1" = .error "keypair-fail" ∧
    Event.createKeyPair "w1" ∈ (runAllProvisionersOnce keyPairFailEnv).1 ∧
    (runAllProvisionersOnce keyPairFailEnv).2 = .ok () := by
  refine ⟨rfl, ?_, rfl⟩
  decide

/-- C7: the control loop's per-iteration contract for the
consecutive-failure counter: below or at the threshold, a successful sweep
resets the counter to zero and a failed sweep increments it by exactly one
(with `runs` incremented either way); strictly above the threshold of 15,
the iteration schedules the bounded hard-exit timer and raises the fatal
error without attempting any sweep. -/
theorem runIteration_consecFailContract (stats : Stats) (interval : Nat) :
    (stats.consecFail ≤ MAX_FAILURES →
      (runIteration stats true interval).2 =
        .continued { runs := stats.runs + 1, consecFail := 0 } ∧
      (runIteration stats false interval).2 =
        .continued { runs := stats.runs + 1, consecFail := stats.consecFail + 1 }) ∧
    (MAX_FAILURES < stats.consecFail → ∀ sweepOk,
      (runIteration stats sweepOk interval).1 =
        [LoopEvent.watchdogTouch, LoopEvent.exitTimerScheduled MAX_KILL_TIME] ∧
      (runIteration stats sweepOk interval).2 =
        .fatal stats "provisioner is failing a lot" ∧
      ∀ ok, LoopEvent.sweep ok ∉ (runIteration stats sweepOk interval).1) := by
  constructor
  · intro hle
    have hnot : ¬ MAX_FAILURES < stats.consecFail := by omega
    simp [runIteration, hnot]
  · intro hgt sweepOk
    simp [runIteration, hgt]

/-- Witness for C7: one concrete healthy iteration (3 consecutive failures,
success resets to 0) and one concrete breached iteration (16 consecutive
failures, fatal without a sweep). -/
theorem runIteration_consecFailContract_witness :
    (runIteration ⟨2, 3⟩ true 1000).2 = .continued { runs := 3, consecFail := 0 } ∧
    (runIteration ⟨2, 16⟩ true 1000).2 = .fatal ⟨2, 16⟩ "provisioner is failing a lot" :=
  ⟨((runIteration_consecFailContract ⟨2, 3⟩ 1000).1 (by decide)).1,
   (((runIteration_consecFailContract ⟨2, 16⟩ 1000).2 (by decide)) true).2.1⟩

/-- C8: `stop()` clears the keep-running flag, disarms the watchdog and
zeroes both stats counters, yielding exactly the freshly-constructed state,
so a subsequent `run()` entry from a stopped provisioner is identical to a
`run()` entry from a fresh one: stats at zero, watchdog armed, keep-running
set, no residual state. -/
theorem stopThenRun_freshState (s : PState) :
    stop s = initState ∧
    runEntry (stop s) = runEntry initState ∧
    (runEntry (stop s)).stats = { runs := 0, consecFail := 0 } ∧
    (runEntry (stop s)).watchDog.running = true ∧
    (runEntry (stop s)).keepRunning = true :=
  ⟨rfl, rfl, rfl, rfl, rfl⟩

/-- Witness for C4: with the spot request rejecting exactly for the third of
five bids, `provisionType` rejects with that error while the first bid's
submission remains in the trace. -/
theorem provisionType_scaleUpFailurePropagates_witness :
    (provisionType thirdBidFailEnv ⟨"w1"⟩).2 = .error "spot-fail" ∧
    Event.requestSpotInstance "w1"
        ⟨"us-west-2", "us-west-2a", "m3.large", 0⟩ ∈
      (provisionType thirdBidFailEnv ⟨"w1"⟩).1 := by
  have h := provisionType_scaleUpFailurePropagates thirdBidFailEnv ⟨"w1"⟩ 10
    [⟨"us-west-2", "us-west-2a", "m3.large", 0⟩,
     ⟨"us-west-2", "us-west-2a", "m3.large", 1⟩]
    [⟨"us-west-2", "us-west-2a", "m3.large", 3⟩,
     ⟨"us-west-2", "us-west-2a", "m3.large", 4⟩]
    ⟨"us-west-2", "us-west-2a", "m3.large", 2⟩ "spot-fail"
    rfl (by decide) (by decide) (by decide) rfl
  exact ⟨h.1, h.2.1 _ (by decide)⟩

/-- C10: during scale-up, the sequential promise chain stops at the first
failing spawn: the trace consists of the successful spawns before it (each
with its pacing delay) and the failing spawn only, `provisionType` rejects
with the failure, and no provisioning request is submitted for any
remaining bid distinct from the earlier ones. -/
theorem provisionType_chainStopsAtFirstFailure (env : Env)
    (workerType : WorkerType) (pendingTasks : Nat) (good rest : List Bid)
    (bad : Bid) (e : Err)
    (hpt : env.pendingTasks workerType.workerType = .ok pendingTasks)
    (hpos : 0 < (iterationRecord env workerType pendingTasks).change)
    (hbids : env.determineSpotBids workerType.workerType env.regions
        (iterationRecord env workerType pendingTasks).change.toNat =
      good ++ bad :: rest)
    (hgood : ∀ b ∈ good, (spawn env workerType b).2 = .ok ())
    (hbad : (spawn env workerType bad).2 = .error e) :
    (provisionType env workerType).1 =
      [Event.pendingTasksQuery workerType.workerType,
       Event.reportIteration (iterationRecord env workerType pendingTasks)] ++
      (good.flatMap (fun b => (spawn env workerType b).1 ++ delayerCall 500) ++
        (spawn env workerType bad).1) ∧
    (provisionType env workerType).2 = .error e ∧
    (∀ b ∈ rest, b ∉ good → b ≠ bad →
      Event.requestSpotInstance workerType.workerType b ∉
        (provisionType env workerType).1) := by
  have hchain := bidChain_stopsAtFailure env workerType bad e hbad good rest hgood
  have htr : (provisionType env workerType).1 =
      [Event.pendingTasksQuery workerType.workerType,
       Event.reportIteration (iterationRecord env workerType pendingTasks)] ++
      (good.flatMap (fun b => (spawn env workerType b).1 ++ delayerCall 500) ++
        (spawn env workerType bad).1) := by
    simp only [provisionType, hpt, hpos, if_true, hbids, hchain]
  refine ⟨htr, ?_, ?_⟩
  · simp only [provisionType, hpt, hpos, if_true, hbids, hchain]
  · intro b hb hnotg hneq hmem
    rw [htr] at hmem
    rcases List.mem_append.mp hmem with h1 | h1
    · simp at h1
    · rcases List.mem_append.mp h1 with h2 | h2
      · rcases List.mem_flatMap.mp h2 with ⟨b', hb', h3⟩
        rcases List.mem_append.mp h3 with h4 | h4
        · exact hnotg (spawn_request_inj env workerType b' b h4 ▸ hb')
        · simp [delayerCall] at h4
      · exact hneq (spawn_request_inj env workerType bad b h2)

/-- Witness for C10: with the third of five bids failing, no provisioning
request is submitted for the fourth bid and `provisionType` rejects. -/
theorem provisionType_chainStopsAtFirstFailure_witness :
    Event.requestSpotInstance "w1"
        ⟨"us-west-2", "us-west-2a", "m3.large", 3⟩ ∉
      (provisionType thirdBidFailEnv ⟨"w1"⟩).1 ∧
    (provisionType thirdBidFailEnv ⟨"w1"⟩).2 = .error "spot-fail" := by
  have h := provisionType_chainStopsAtFirstFailure thirdBidFailEnv ⟨"w1"⟩ 10
    [⟨"us-west-2", "us-west-2a", "m3.large", 0⟩,
     ⟨"us-west-2", "us-west-2a", "m3.large", 1⟩]
    [⟨"us-west-2", "us-west-2a", "m3.large", 3⟩,
     ⟨"us-west-2", "us-west-2a", "m3.large", 4⟩]
    ⟨"us-west-2", "us-west-2a", "m3.large", 2⟩ "spot-fail"
    rfl (by decide) (by decide) (by decide) rfl
  exact ⟨h.2.2 _ (by decide) (by decide) (by decide), h.2.1⟩

/-- C5: for a pool whose capacity delta is negative, `provisionType` issues
exactly one termination request, for `|delta|` capacity units and restricted
to the `pending` and `spot-request` lifecycle states; every termination
request in the trace asks for at most `|delta|` units and its state list
never contains `running`. -/
theorem provisionType_scaleDownRestricted (env : Env)
    (workerType : WorkerType) (pendingTasks : Nat)
    (hpt : env.pendingTasks workerType.workerType = .ok pendingTasks)
    (hneg : (iterationRecord env workerType pendingTasks).change < 0) :
    (provisionType env workerType).1 =
      [Event.pendingTasksQuery workerType.workerType,
       Event.reportIteration (iterationRecord env workerType pendingTasks),
       Event.killCapacity workerType.workerType
         (-(iterationRecord env workerType pendingTasks).change).toNat
         [InstState.pending, InstState.spotReq]] ∧
    (∀ n states, Event.killCapacity workerType.workerType n states ∈
        (provisionType env workerType).1 →
      n ≤ (-(iterationRecord env workerType pendingTasks).change).toNat ∧
      states = [InstState.pending, InstState.spotReq] ∧
      InstState.running ∉ states) ∧
    (provisionType env workerType).2 =
      env.killCapacityOfWorkerType workerType.workerType
        (-(iterationRecord env workerType pendingTasks).change).toNat
        [InstState.pending, InstState.spotReq] := by
  have hnpos : ¬ 0 < (iterationRecord env workerType pendingTasks).change := by
    omega
  have htr : (provisionType env workerType).1 =
      [Event.pendingTasksQuery workerType.workerType,
       Event.reportIteration (iterationRecord env workerType pendingTasks),
       Event.killCapacity workerType.workerType
         (-(iterationRecord env workerType pendingTasks).change).toNat
         [InstState.pending, InstState.spotReq]] := by
    simp [provisionType, hpt, hnpos, hneg]
  refine ⟨htr, ?_, ?_⟩
  · intro n states hmem
    rw [htr] at hmem
    rcases List.mem_cons.mp hmem with h1 | h1
    · simp at h1
    · rcases List.mem_cons.mp h1 with h2 | h2
      · simp at h2
      · rcases List.mem_cons.mp h2 with h3 | h3
        · rcases Event.killCapacity.injEq .. ▸ h3 with ⟨_, hn, hs⟩
          subst hn; subst hs
          exact ⟨le_refl _, rfl, by decide⟩
        · simp at h3
  · simp [provisionType, hpt, hnpos, hneg]

/-- Witness for C5: with a backlog of 0 against 3 running and 2 pending
capacity units the delta is −5; the one termination request asks for 5
units in the `pending`/`spot-request` states. -/
theorem provisionType_scaleDownRestricted_witness :
    (provisionType scaleDownEnv ⟨"w1"⟩).1 =
      [Event.pendingTasksQuery "w1",
       Event.reportIteration (iterationRecord scaleDownEnv ⟨"w1"⟩ 0),
       Event.killCapacity "w1" 5 [InstState.pending, InstState.spotReq]] :=
  (provisionType_scaleDownRestricted scaleDownEnv ⟨"w1"⟩ 0 rfl (by decide)).1

/-- C6: every `provisionType` invocation that obtains its pending-task count
emits exactly one iteration-metrics record, carrying the pool identity, the
pending-task count, the running and pending capacities and the computed
delta, whatever the delta's sign; when the delta is zero the record is still
emitted and no provisioning or termination action of any kind is issued. -/
theorem provisionType_reportsExactlyOnce (env : Env)
    (workerType : WorkerType) (pendingTasks : Nat)
    (hpt : env.pendingTasks workerType.workerType = .ok pendingTasks) :
    countEvents isReportEvent (provisionType env workerType).1 = 1 ∧
    Event.reportIteration (iterationRecord env workerType pendingTasks) ∈
      (provisionType env workerType).1 ∧
    ((iterationRecord env workerType pendingTasks).change = 0 →
      (provisionType env workerType).1 =
        [Event.pendingTasksQuery workerType.workerType,
         Event.reportIteration (iterationRecord env workerType pendingTasks)] ∧
      (provisionType env workerType).2 = .ok ()) := by
  by_cases h1 : 0 < (iterationRecord env workerType pendingTasks).change
  · have htr : (provisionType env workerType).1 =
        [Event.pendingTasksQuery workerType.workerType,
         Event.reportIteration (iterationRecord env workerType pendingTasks)] ++
        (bidChain env workerType
          (env.determineSpotBids workerType.workerType env.regions
            (iterationRecord env workerType pendingTasks).change.toNat)).1 := by
      simp [provisionType, hpt, h1]
    refine ⟨?_, ?_, ?_⟩
    · rw [htr, countEvents_append,
        countEvents_eq_zero _ _ (fun ev hev =>
          isReport_false_of_chainEvent ev
            (bidChain_traceEvents env workerType _ ev hev))]
      simp [countEvents, isReportEvent]
    · rw [htr]; simp
    · intro h0; omega
  · by_cases h2 : (iterationRecord env workerType pendingTasks).change < 0
    · have htr : (provisionType env workerType).1 =
          [Event.pendingTasksQuery workerType.workerType,
           Event.reportIteration (iterationRecord env workerType pendingTasks),
           Event.killCapacity workerType.workerType
             (-(iterationRecord env workerType pendingTasks).change).toNat
             [InstState.pending, InstState.spotReq]] := by
        simp [provisionType, hpt, h1, h2]
      refine ⟨?_, ?_, ?_⟩
      · rw [htr]; simp [countEvents, isReportEvent]
      · rw [htr]; simp
      · intro h0; omega
    · refine ⟨?_, ?_, ?_⟩ <;>
        simp [provisionType, hpt, h1, h2, countEvents, isReportEvent]

/-- Witness for C6: with a backlog of 5 against 3 running and 2 pending
capacity units the delta is 0; exactly one metrics record is emitted and
nothing else happens. -/
theorem provisionType_reportsExactlyOnce_witness :
    countEvents isReportEvent (provisionType zeroDeltaEnv ⟨"w1"⟩).1 = 1 ∧
    (provisionType zeroDeltaEnv ⟨"w1"⟩).2 = .ok () := by
  have h := provisionType_reportsExactlyOnce zeroDeltaEnv ⟨"w1"⟩ 5 rfl
  exact ⟨h.1, (h.2.2 (by decide)).2⟩

/-- C9: within one sweep whose shared fetches and maintenance succeed, every
pool's `provisionType` runs to its own completion — each pool's full trace
is part of the sweep's trace and each pool's pending-task query occurs —
whatever any other pool's outcome, and the sweep resolves exactly when every
pool's reconciliation resolved, so one pool's rejection surfaces as a
rejection of the sweep without preventing the other pools from running. -/
theorem runAllProvisionersOnce_fanOutIsolation (env : Env)
    (workerTypes : List WorkerType)
    (hload : env.loadAll = .ok workerTypes)
    (hpre : allOf [env.pricing, env.update] = .ok ())
    (hmaint : maintenanceResult env (workerTypes.map (·.workerType)) = .ok ()) :
    (runAllProvisionersOnce env).1 =
      [Event.loadAll, Event.pricingFetch, Event.managerUpdate] ++
        maintenanceTrace (workerTypes.map (·.workerType)) ++
        (workerTypes.map (fun w => (provisionType env w).1)).flatten ∧
    (∀ w ∈ workerTypes, Event.pendingTasksQuery w.workerType ∈
      (runAllProvisionersOnce env).1) ∧
    ((runAllProvisionersOnce env).2 = .ok () ↔
      ∀ w ∈ workerTypes, (provisionType env w).2 = .ok ()) := by
  have htr : (runAllProvisionersOnce env).1 =
      [Event.loadAll, Event.pricingFetch, Event.managerUpdate] ++
        maintenanceTrace (workerTypes.map (·.workerType)) ++
        (workerTypes.map (fun w => (provisionType env w).1)).flatten := by
    simp only [runAllProvisionersOnce, hload, hpre, hmaint, List.map_map]
    rfl
  have hres : (runAllProvisionersOnce env).2 =
      allOf (workerTypes.map (fun w => (provisionType env w).2)) := by
    simp only [runAllProvisionersOnce, hload, hpre, hmaint, List.map_map]
    rfl
  refine ⟨htr, ?_, ?_⟩
  · intro w hw
    rw [htr]
    refine List.mem_append_right _ (List.mem_flatten.mpr ?_)
    exact ⟨(provisionType env w).1, List.mem_map_of_mem _ hw,
      provisionType_queryMem env w⟩
  · rw [hres, allOf_ok_iff]
    constructor
    · intro h w hw
      exact h _ (List.mem_map_of_mem _ hw)
    · intro h r hr
      rcases List.mem_map.mp hr with ⟨w, hw, hwr⟩
      exact hwr ▸ h w hw

/-- Witness for C9: with pool `w1`'s queue query rejecting and `w2` healthy,
`w2`'s pending-task query still occurs in the sweep's trace and the sweep
does not resolve successfully. -/
theorem runAllProvisionersOnce_fanOutIsolation_witness :
    Event.pendingTasksQuery "w2" ∈ (runAllProvisionersOnce mixedFailEnv).1 ∧
    (runAllProvisionersOnce mixedFailEnv).2 ≠ .ok () := by
  have h := runAllProvisionersOnce_fanOutIsolation mixedFailEnv
    [⟨"w1"⟩, ⟨"w2"⟩] rfl rfl rfl
  refine ⟨h.2.1 ⟨"w2"⟩ (by decide), fun hok => ?_⟩
  have := (h.2.2.mp hok) ⟨"w1"⟩ (by decide)
  revert this
  decide

end AwsProvisioner
